import Mathlib

/-!
Verification of the sputniPIC driver (`src/sputniPIC.cpp`) against its
natural-language specification.

The development shallowly embeds the driver: grid extents and run parameters
become structures, the two charge-density comparison loops of the verifier
section (lines 149-190 of `sputniPIC.cpp`) become folds over `List.range`
with values in `ℚ` (abstracting the C floating-point types), and the control
flow of `main` (allocation, initialization, the cycle loop, output, the
final comparison, deallocation) becomes explicit lists of events whose order
mirrors program order.
-/

namespace SputniPIC

/-- Grid extents (node counts), from `Grid.h` as used by the driver. -/
structure Grid where
  nxn : Nat
  nyn : Nat
  nzn : Nat
deriving DecidableEq

/-- The run parameters the driver reads: number of species `ns`, number of
cycles, first cycle index, and the output cadence `FieldOutputCycle`. -/
structure Parameters where
  ns : Nat
  ncycles : Nat
  first_cycle_n : Nat
  FieldOutputCycle : Nat
deriving DecidableEq

/-- A per-species interpolated-density store as the verifier reads it:
the nested (chain-of-pointers) view `rhon[i][j][k]` and the flat view
`rhon_flat[n]`.  Values are modelled in `ℚ`. -/
structure SpeciesDens where
  rhon : Nat → Nat → Nat → ℚ
  rhon_flat : Nat → ℚ

/-- The net (summed over species) density store: nested and flat views of
`rhon`, as the verifier reads them. -/
structure NetDens where
  rhon : Nat → Nat → Nat → ℚ
  rhon_flat : Nat → ℚ

/-- The flat-view index formula that the verifier applies to a triple
`(i, j, k)`: `k * (nxn + nyn) + j * nxn + i`
(`sputniPIC.cpp` lines 159-163 and 179-183). -/
def flatIndex (nxn nyn i j k : Nat) : Nat :=
  k * (nxn + nyn) + j * nxn + i

/-- The first verifier loop (`sputniPIC.cpp` lines 151-170): for every
species `is < ns` and every in-range triple, fold `max` of
`|idsCPU[is].rhon[i][j][k] - idsGPU[is].rhon_flat[k*(nxn+nyn)+j*nxn+i]|`
starting from `0`, in the loop order of the source (is, i, j, k). -/
def verifierIdsError (ns : Nat) (grd : Grid) (idsCPU idsGPU : Nat → SpeciesDens) : ℚ :=
  (List.range ns).foldl (fun acc is =>
    (List.range grd.nxn).foldl (fun acc i =>
      (List.range grd.nyn).foldl (fun acc j =>
        (List.range grd.nzn).foldl (fun acc k =>
          max acc |(idsCPU is).rhon i j k -
            (idsGPU is).rhon_flat (k * (grd.nxn + grd.nyn) + j * grd.nxn + i)|)
          acc) acc) acc) 0

/-- The second verifier loop (`sputniPIC.cpp` lines 173-190): fold `max` of
`|idnCPU.rhon[i][j][k] - idnCPU.rhon_flat[k*(nxn+nyn)+j*nxn+i]|` starting
from `0`.  Note that, exactly as in the source, both sides of the
subtraction come from `idnCPU`; the `idnGPU` store is a parameter of the
phase but is never read. -/
def verifierIdnError (grd : Grid) (idnCPU idnGPU : NetDens) : ℚ :=
  (List.range grd.nxn).foldl (fun acc i =>
    (List.range grd.nyn).foldl (fun acc j =>
      (List.range grd.nzn).foldl (fun acc k =>
        max acc |idnCPU.rhon i j k -
          idnCPU.rhon_flat (k * (grd.nxn + grd.nyn) + j * grd.nxn + i)|)
        acc) acc) 0

/-- The exit code of `main` (`sputniPIC.cpp` line 222): the literal `0`. -/
def mainExitCode : Int := 0

/-- The tail of `main` after the cycle loop: the two verifier maxima and the
return value, as a triple. -/
def verifierPhase (ns : Nat) (grd : Grid) (idsCPU idsGPU : Nat → SpeciesDens)
    (idnCPU idnGPU : NetDens) : ℚ × ℚ × Int :=
  (verifierIdsError ns grd idsCPU idsGPU, verifierIdnError grd idnCPU idnGPU, mainExitCode)

/-- List of the absolute element-wise differences the first verifier loop
takes its maximum over, one per in-range `(is, i, j, k)`, with the flat view
read at `flatIndex`. -/
def errorTermsIds (ns : Nat) (grd : Grid) (idsCPU idsGPU : Nat → SpeciesDens) : List ℚ :=
  (List.range ns).flatMap fun is =>
    (List.range grd.nxn).flatMap fun i =>
      (List.range grd.nyn).flatMap fun j =>
        (List.range grd.nzn).map fun k =>
          |(idsCPU is).rhon i j k -
            (idsGPU is).rhon_flat (flatIndex grd.nxn grd.nyn i j k)|

/-- List of the absolute element-wise differences the second verifier loop
takes its maximum over, one per in-range `(i, j, k)`, with the flat view
read at `flatIndex`. -/
def errorTermsIdn (grd : Grid) (idnCPU : NetDens) : List ℚ :=
  (List.range grd.nxn).flatMap fun i =>
    (List.range grd.nyn).flatMap fun j =>
      (List.range grd.nzn).map fun k =>
        |idnCPU.rhon i j k - idnCPU.rhon_flat (flatIndex grd.nxn grd.nyn i j k)|

/-- Maximum of a list of rationals, starting from `0` (the verifier
initializes its accumulator to `0.0f`). -/
def qmax0 (l : List ℚ) : ℚ := l.foldl max 0

/-- The two execution paths of the driver: every replica is either the
CPU-path one or the accelerator-path ("GPU") one. -/
inductive Path where
  | cpu : Path
  | gpu : Path
deriving DecidableEq

/-- The observable calls `main` makes during and after the cycle loop, in
program order.  Species-indexed calls carry the species index; output calls
carry the cycle number they are tagged with. -/
inductive Event where
  | zeroDensities : Path → Event
  | mover : Path → Nat → Event
  | interpP2G : Path → Nat → Event
  | applyBCids : Path → Nat → Event
  | sumOverSpecies : Path → Event
  | applyBCscalarDensN : Path → Event
  | writeVectors : Path → Nat → Event
  | writeScalars : Path → Nat → Event
  | verifyIdsRhon : Event
  | verifyIdnRhon : Event
deriving DecidableEq

/-- The mover calls of one cycle (`sputniPIC.cpp` lines 106-109): for each
species, `mover_PC` on the CPU replica then `mover_PC_GPU_basic` on the GPU
replica. -/
def moverEvents (ns : Nat) : List Event :=
  (List.range ns).flatMap fun is => [.mover .cpu is, .mover .gpu is]

/-- The interpolation calls of one cycle (`sputniPIC.cpp` lines 118-121). -/
def interpEvents (ns : Nat) : List Event :=
  (List.range ns).flatMap fun is => [.interpP2G .cpu is, .interpP2G .gpu is]

/-- The per-species density boundary-condition calls of one cycle
(`sputniPIC.cpp` lines 123-126). -/
def bcidsEvents (ns : Nat) : List Event :=
  (List.range ns).flatMap fun is => [.applyBCids .cpu is, .applyBCids .gpu is]

/-- The sum-over-species and scalar-density boundary-condition calls of one
cycle (`sputniPIC.cpp` lines 128-132). -/
def sumEvents : List Event :=
  [.sumOverSpecies .cpu, .sumOverSpecies .gpu,
   .applyBCscalarDensN .cpu, .applyBCscalarDensN .gpu]

/-- The snapshot output calls of one cycle (`sputniPIC.cpp` lines 136-142):
emitted exactly when the cycle index is a multiple of `FieldOutputCycle`,
and then consisting of the vector-field writes tagged "cpu" and "gpu"
followed by the scalar-density writes tagged "cpu" and "gpu". -/
def outputEvents (param : Parameters) (cycle : Nat) : List Event :=
  if cycle % param.FieldOutputCycle = 0 then
    [.writeVectors .cpu cycle, .writeVectors .gpu cycle,
     .writeScalars .cpu cycle, .writeScalars .gpu cycle]
  else []

/-- Everything one cycle does after the two `setZeroDensities` calls
(`sputniPIC.cpp` lines 104-144), in program order. -/
def restOfCycle (param : Parameters) (cycle : Nat) : List Event :=
  moverEvents param.ns ++ interpEvents param.ns ++ bcidsEvents param.ns
    ++ sumEvents ++ outputEvents param cycle

/-- One iteration of the cycle loop (`sputniPIC.cpp` lines 91-147): first
`setZeroDensities` on the CPU replica then on the GPU replica (lines 99-100),
then the rest of the cycle. -/
def cycleEvents (param : Parameters) (cycle : Nat) : List Event :=
  [.zeroDensities .cpu, .zeroDensities .gpu] ++ restOfCycle param cycle

/-- The whole cycle loop: `ncycles` iterations with cycle index running from
`first_cycle_n` (`sputniPIC.cpp` line 91). -/
def cyclesTrace (param : Parameters) : List Event :=
  (List.range param.ncycles).flatMap fun c => cycleEvents param (param.first_cycle_n + c)

/-- The observable trace of `main` from the start of the cycle loop on: all
cycles, then the two verifier comparisons (`sputniPIC.cpp` lines 149-190). -/
def mainTrace (param : Parameters) : List Event :=
  cyclesTrace param ++ [.verifyIdsRhon, .verifyIdnRhon]

/-- Phase number of an event inside one cycle, in the serial order the
driver runs them: densities are zeroed (0), movers run (1), interpolation
runs (2), per-species density boundary conditions run (3), the sum over
species runs (4), the scalar-density boundary condition runs (5), snapshot
output runs (6), and the end-of-run verifier comparisons come last (7). -/
def phaseOf : Event → Nat
  | .zeroDensities _ => 0
  | .mover _ _ => 1
  | .interpP2G _ _ => 2
  | .applyBCids _ _ => 3
  | .sumOverSpecies _ => 4
  | .applyBCscalarDensN _ => 5
  | .writeVectors _ _ => 6
  | .writeScalars _ _ => 6
  | .verifyIdsRhon => 7
  | .verifyIdnRhon => 7

/-- Is the event a snapshot write? -/
def isWriteEvent : Event → Bool
  | .writeVectors _ _ => true
  | .writeScalars _ _ => true
  | _ => false

/-- The stores `main` works with: the grid, the field and auxiliary-field
stores, the per-species and net density stores, and the per-species
particle stores, each tagged with its replica. -/
inductive Store where
  | grd : Store
  | field : Path → Store
  | fieldAux : Path → Store
  | densSpecies : Path → Nat → Store
  | densNet : Path → Store
  | particles : Path → Nat → Store
deriving DecidableEq

/-- The allocation calls of `main` in program order (`sputniPIC.cpp` lines
48-80): `setGrid`, `field_allocate` for both replicas, `field_aux_allocate`
for both replicas, `interp_dens_species_allocate` for the CPU replica only
(lines 66-67), `interp_dens_net_allocate` for the CPU replica only
(line 71), and `particle_allocate` for both replicas per species
(lines 77-80). -/
def allocations (ns : Nat) : List Store :=
  [.grd, .field .cpu, .field .gpu, .fieldAux .cpu, .fieldAux .gpu]
    ++ (List.range ns).map (Store.densSpecies .cpu)
    ++ [.densNet .cpu]
    ++ ((List.range ns).flatMap fun is => [.particles .cpu is, .particles .gpu is])

/-- The deallocation calls of `main` in program order (`sputniPIC.cpp` lines
195-207): `grid_deallocate`, `field_deallocate` for both replicas,
`interp_dens_net_deallocate` for the CPU replica, and per species
`interp_dens_species_deallocate` and `particle_deallocate` for the CPU
replica. -/
def deallocations (ns : Nat) : List Store :=
  [.grd, .field .cpu, .field .gpu, .densNet .cpu]
    ++ ((List.range ns).flatMap fun is => [.densSpecies .cpu is, .particles .cpu is])

/-- One replica of the simulation state, with abstract component types:
the field store, the auxiliary field store, the per-species particle
stores, and the per-species density stores. -/
structure Replica (F A P D : Type) where
  emf : F
  emfAux : A
  parts : P
  ids : D

/-- The initialization phase of `main` (`sputniPIC.cpp` lines 82-84): the
same procedure `initGEM` is applied to the same `param` and `grd` once for
the CPU replica and once for the GPU replica.  `initGEM` itself lives
outside the driver; it is kept abstract here, which by the determinism
required of it in the spec makes it an arbitrary function of its inputs. -/
def initPhase {R : Type} (initGEM : Parameters → Grid → R) (param : Parameters)
    (grd : Grid) : R × R :=
  (initGEM param grd, initGEM param grd)

/-- The density state one cycle works on: per-species nested charge density
(species, i, j, k) and net nested charge density (i, j, k). -/
structure DensGridState where
  idsRhon : Nat → Nat → Nat → Nat → ℚ
  idnRhon : Nat → Nat → Nat → ℚ

/-- The all-zero density state. -/
def zeroDensState : DensGridState :=
  ⟨fun _ _ _ _ => 0, fun _ _ _ => 0⟩

/-- Modelled from the spec: `setZeroDensities` (its body is outside the
driver source) zeroes all per-species and aggregate densities before
interpolation (spec 4.6 step 1, and the comment at `sputniPIC.cpp`
line 98). -/
def setZeroDensitiesModel (_state : DensGridState) : DensGridState :=
  zeroDensState

/-- Pointwise sum of two density states (the deposits of a cycle are
accumulated additively onto the store). -/
def addDensState (a b : DensGridState) : DensGridState :=
  ⟨fun s i j k => a.idsRhon s i j k + b.idsRhon s i j k,
   fun i j k => a.idnRhon i j k + b.idnRhon i j k⟩

/-- The density effect of one cycle on a store: zero it (lines 99-100), then
accumulate that cycle's deposits. -/
def depositAfterZero (incoming deposit : DensGridState) : DensGridState :=
  addDensState (setZeroDensitiesModel incoming) deposit

/-- A 2x2x1-node grid, used to instantiate theorems with hypotheses. -/
def gW : Grid := ⟨2, 2, 1⟩

/-- A 1x1x1-node grid, used for concrete evaluations of the verifier. -/
def gOne : Grid := ⟨1, 1, 1⟩

/-- Species density stores that are zero in both views. -/
def zeroSpecies : Nat → SpeciesDens :=
  fun _ => ⟨fun _ _ _ => 0, fun _ => 0⟩

/-- A net density store that is zero in both views. -/
def zeroNet : NetDens := ⟨fun _ _ _ => 0, fun _ => 0⟩

/-- A CPU net density store whose nested view is constantly `1` while its
flat view is constantly `0`: its two views disagree. -/
def netCPUBad : NetDens := ⟨fun _ _ _ => 1, fun _ => 0⟩

/-- A GPU net density store that is constantly `1` in both views: it agrees
everywhere with the nested view of `netCPUBad`. -/
def netGPUOne : NetDens := ⟨fun _ _ _ => 1, fun _ => 1⟩

/-- A CPU net density store with nested view constantly `1000000` and flat
view constantly `0`: a run whose dual views have drifted enormously. -/
def netHugeCPU : NetDens := ⟨fun _ _ _ => 1000000, fun _ => 0⟩

/-- A GPU net density store constantly `1000000` in both views. -/
def netHugeGPU : NetDens := ⟨fun _ _ _ => 1000000, fun _ => 1000000⟩

/-- Concrete parameters: one species, two cycles starting at cycle 1,
output every cycle. -/
def pEx : Parameters := ⟨1, 2, 1, 1⟩

/-! ## Helper lemmas -/

/-- Folding `max` over a flattened list of lists is the nested fold. -/
theorem foldl_max_flatMap {α : Type} (l : List α) (f : α → List ℚ) (a : ℚ) :
    (l.flatMap f).foldl max a = l.foldl (fun b x => (f x).foldl max b) a := by
  induction l generalizing a with
  | nil => rfl
  | cons x xs ih => simp [List.flatMap_cons, List.foldl_append, ih]

/-- The first verifier loop computes the maximum (against `0`) of the listed
element-wise absolute differences, where the flat view is read at
`flatIndex`. -/
theorem verifierIdsError_eq_qmax (ns : Nat) (grd : Grid)
    (idsCPU idsGPU : Nat → SpeciesDens) :
    verifierIdsError ns grd idsCPU idsGPU = qmax0 (errorTermsIds ns grd idsCPU idsGPU) := by
  unfold verifierIdsError errorTermsIds qmax0 flatIndex
  simp only [foldl_max_flatMap, List.foldl_map]

/-- The second verifier loop computes the maximum (against `0`) of the
listed element-wise absolute differences of the two views of the CPU net
density, where the flat view is read at `flatIndex`. -/
theorem verifierIdnError_eq_qmax (grd : Grid) (idnCPU idnGPU : NetDens) :
    verifierIdnError grd idnCPU idnGPU = qmax0 (errorTermsIdn grd idnCPU) := by
  unfold verifierIdnError errorTermsIdn qmax0 flatIndex
  simp only [foldl_max_flatMap, List.foldl_map]

/-- Every mover event has phase 1. -/
theorem phase_of_mem_mover {e : Event} {ns : Nat} (he : e ∈ moverEvents ns) :
    phaseOf e = 1 := by
  simp only [moverEvents, List.mem_flatMap, List.mem_cons, List.not_mem_nil, or_false] at he
  obtain ⟨is, -, h | h⟩ := he <;> subst h <;> rfl

/-- Every interpolation event has phase 2. -/
theorem phase_of_mem_interp {e : Event} {ns : Nat} (he : e ∈ interpEvents ns) :
    phaseOf e = 2 := by
  simp only [interpEvents, List.mem_flatMap, List.mem_cons, List.not_mem_nil, or_false] at he
  obtain ⟨is, -, h | h⟩ := he <;> subst h <;> rfl

/-- Every per-species boundary-condition event has phase 3. -/
theorem phase_of_mem_bcids {e : Event} {ns : Nat} (he : e ∈ bcidsEvents ns) :
    phaseOf e = 3 := by
  simp only [bcidsEvents, List.mem_flatMap, List.mem_cons, List.not_mem_nil, or_false] at he
  obtain ⟨is, -, h | h⟩ := he <;> subst h <;> rfl

/-- Every sum / scalar-density boundary-condition event has phase 4 or 5. -/
theorem phase_of_mem_sum {e : Event} (he : e ∈ sumEvents) :
    4 ≤ phaseOf e ∧ phaseOf e ≤ 5 := by
  simp only [sumEvents, List.mem_cons, List.not_mem_nil, or_false] at he
  rcases he with h | h | h | h <;> subst h <;> exact ⟨by decide, by decide⟩

/-- Every snapshot output event has phase 6. -/
theorem phase_of_mem_output {e : Event} {param : Parameters} {c : Nat}
    (he : e ∈ outputEvents param c) : phaseOf e = 6 := by
  unfold outputEvents at he
  split at he
  · simp only [List.mem_cons, List.not_mem_nil, or_false] at he
    rcases he with h | h | h | h <;> subst h <;> rfl
  · exact absurd he (List.not_mem_nil e)

/-- Everything after the zeroing of the densities in a cycle has a phase
between 1 and 6. -/
theorem phase_of_mem_rest {e : Event} {param : Parameters} {c : Nat}
    (he : e ∈ restOfCycle param c) : 1 ≤ phaseOf e ∧ phaseOf e ≤ 6 := by
  simp only [restOfCycle, List.mem_append] at he
  rcases he with ((((h | h) | h) | h) | h)
  · have := phase_of_mem_mover h; omega
  · have := phase_of_mem_interp h; omega
  · have := phase_of_mem_bcids h; omega
  · have := phase_of_mem_sum h; omega
  · have := phase_of_mem_output h; omega

/-- Every event of a cycle has a phase at most 6. -/
theorem phase_of_mem_cycle {e : Event} {param : Parameters} {c : Nat}
    (he : e ∈ cycleEvents param c) : phaseOf e ≤ 6 := by
  simp only [cycleEvents, List.mem_append, List.mem_cons, List.not_mem_nil, or_false] at he
  rcases he with (h | h) | h
  · subst h; decide
  · subst h; decide
  · exact (phase_of_mem_rest h).2

/-- Every event of the cycle loop has a phase at most 6 (in particular it is
not one of the two end-of-run verifier comparisons, which have phase 7). -/
theorem phase_of_mem_cyclesTrace {e : Event} {param : Parameters}
    (he : e ∈ cyclesTrace param) : phaseOf e ≤ 6 := by
  simp only [cyclesTrace, List.mem_flatMap] at he
  obtain ⟨c, -, h⟩ := he
  exact phase_of_mem_cycle h

/-- An event is a snapshot write exactly when its phase is 6. -/
theorem isWriteEvent_iff_phase {e : Event} : isWriteEvent e = true ↔ phaseOf e = 6 := by
  cases e <;> simp [isWriteEvent, phaseOf]

/-- Gluing lemma: a phase-monotone list followed by a phase-monotone list is
phase-monotone when a phase bound `m` separates them. -/
theorem pairwise_phase_append (m : Nat) {l₁ l₂ : List Event}
    (h₁ : l₁.Pairwise (fun a b => phaseOf a ≤ phaseOf b))
    (h₂ : l₂.Pairwise (fun a b => phaseOf a ≤ phaseOf b))
    (hub : ∀ e ∈ l₁, phaseOf e ≤ m) (hlb : ∀ e ∈ l₂, m ≤ phaseOf e) :
    (l₁ ++ l₂).Pairwise (fun a b => phaseOf a ≤ phaseOf b) :=
  List.pairwise_append.mpr ⟨h₁, h₂, fun a ha b hb => le_trans (hub a ha) (hlb b hb)⟩

/-- A list of events of one common phase is phase-monotone. -/
theorem pairwise_phase_const {l : List Event} {p : Nat}
    (h : ∀ e ∈ l, phaseOf e = p) :
    l.Pairwise (fun a b => phaseOf a ≤ phaseOf b) :=
  List.pairwise_of_forall_mem_list fun a ha b hb => by rw [h a ha, h b hb]

/-! ## The claims -/

/-- Claim C1: for every dual-view scalar the verifier compares and every
in-range index triple `(i, j, k)`, the flat-view index used by the
element-wise comparison is exactly `k*(nxn+nyn) + j*nxn + i`; the stride of
`i` is 1, the stride of `j` is `nxn` and the stride of `k` is `nxn + nyn`,
so on a real grid (at least two nodes per axis) `i` is the fastest-varying
axis and `k` the slowest. -/
theorem claim1_verifier_flat_index (ns : Nat) (grd : Grid)
    (idsCPU idsGPU : Nat → SpeciesDens) (idnCPU idnGPU : NetDens)
    (h1 : 2 ≤ grd.nxn) (h2 : 2 ≤ grd.nyn) :
    verifierIdsError ns grd idsCPU idsGPU = qmax0 (errorTermsIds ns grd idsCPU idsGPU)
    ∧ verifierIdnError grd idnCPU idnGPU = qmax0 (errorTermsIdn grd idnCPU)
    ∧ (∀ i j k, flatIndex grd.nxn grd.nyn (i + 1) j k = flatIndex grd.nxn grd.nyn i j k + 1)
    ∧ (∀ i j k, flatIndex grd.nxn grd.nyn i (j + 1) k
        = flatIndex grd.nxn grd.nyn i j k + grd.nxn)
    ∧ (∀ i j k, flatIndex grd.nxn grd.nyn i j (k + 1)
        = flatIndex grd.nxn grd.nyn i j k + (grd.nxn + grd.nyn))
    ∧ 1 < grd.nxn ∧ grd.nxn < grd.nxn + grd.nyn := by
  refine ⟨verifierIdsError_eq_qmax ns grd idsCPU idsGPU,
    verifierIdnError_eq_qmax grd idnCPU idnGPU, ?_, ?_, ?_, ?_, ?_⟩
  · intro i j k; unfold flatIndex; ring
  · intro i j k; unfold flatIndex; ring
  · intro i j k; unfold flatIndex; ring
  · omega
  · omega

/-- Witness for C1 at a concrete 2x2x1-node grid with zero stores. -/
theorem claim1_verifier_flat_index_witness :
    2 ≤ gW.nxn ∧ 2 ≤ gW.nyn ∧
    (verifierIdsError 0 gW zeroSpecies zeroSpecies
        = qmax0 (errorTermsIds 0 gW zeroSpecies zeroSpecies)
      ∧ verifierIdnError gW zeroNet zeroNet = qmax0 (errorTermsIdn gW zeroNet)
      ∧ (∀ i j k, flatIndex gW.nxn gW.nyn (i + 1) j k = flatIndex gW.nxn gW.nyn i j k + 1)
      ∧ (∀ i j k, flatIndex gW.nxn gW.nyn i (j + 1) k
          = flatIndex gW.nxn gW.nyn i j k + gW.nxn)
      ∧ (∀ i j k, flatIndex gW.nxn gW.nyn i j (k + 1)
          = flatIndex gW.nxn gW.nyn i j k + (gW.nxn + gW.nyn))
      ∧ 1 < gW.nxn ∧ gW.nxn < gW.nxn + gW.nyn) :=
  ⟨by decide, by decide,
    claim1_verifier_flat_index 0 gW zeroSpecies zeroSpecies zeroNet zeroNet
      (by decide) (by decide)⟩

/-- Claim C2: the flat-index map is not injective on the in-range domain:
with `nxn = 3`, `nyn = 6`, `nzn = 2`, the distinct in-range triples
`(0, 0, 1)` and `(0, 3, 0)` (the pattern `(i, j + nxn, k - 1)`) receive the
same flat index. -/
theorem claim2_flatIndex_not_injective :
    ∃ nxn nyn nzn i j k i2 j2 k2 : Nat,
      i < nxn ∧ j < nyn ∧ k < nzn ∧ i2 < nxn ∧ j2 < nyn ∧ k2 < nzn ∧
      (i, j, k) ≠ (i2, j2, k2) ∧
      flatIndex nxn nyn i j k = flatIndex nxn nyn i2 j2 k2 ∧
      i2 = i ∧ j2 = j + nxn ∧ k = k2 + 1 :=
  ⟨3, 6, 2, 0, 0, 1, 0, 3, 0, by decide⟩

/-- Claim C3 counterexample: with two configured cycles, the trace of `main`
contains a single verifier comparison of each kind, not one after every
cycle. -/
theorem claim3_counterexample_single_verification :
    pEx.ncycles = 2
    ∧ (mainTrace pEx).count Event.verifyIdsRhon = 1
    ∧ (mainTrace pEx).count Event.verifyIdnRhon = 1 := by decide

/-- Claim C3 (amended): the verifier comparisons run exactly once, after all
configured cycles have completed; no verifier event occurs inside the cycle
loop. -/
theorem claim3_amended_verifier_once_after_cycles (param : Parameters) :
    mainTrace param = cyclesTrace param ++ [Event.verifyIdsRhon, Event.verifyIdnRhon]
    ∧ (cyclesTrace param).count Event.verifyIdsRhon = 0
    ∧ (cyclesTrace param).count Event.verifyIdnRhon = 0 := by
  refine ⟨rfl, ?_, ?_⟩ <;>
  · rw [List.count_eq_zero]
    intro h
    have := phase_of_mem_cyclesTrace h
    simp [phaseOf] at this

/-- Claim C4 (code bug): the aggregate charge-density comparison reads only
the CPU-path store.  First conjunct: the computed maximum is invariant under
any change of the accelerator-path net store, which is never read.  Second
and third conjuncts, at a one-node grid: with the CPU nested view constantly
1, the CPU flat view constantly 0 and the GPU flat view constantly 1, the
code reports 1, whereas comparing the CPU nested view against the GPU flat
view (as the claim states) reports 0. -/
theorem claim4_net_comparison_reads_cpu_only :
    (∀ (grd : Grid) (idnCPU idnGPU idnGPU2 : NetDens),
        verifierIdnError grd idnCPU idnGPU = verifierIdnError grd idnCPU idnGPU2)
    ∧ verifierIdnError gOne netCPUBad netGPUOne = 1
    ∧ verifierIdnError gOne ⟨netCPUBad.rhon, netGPUOne.rhon_flat⟩ netGPUOne = 0 := by
  refine ⟨fun _ _ _ _ => rfl, ?_, ?_⟩ <;>
  · simp [verifierIdnError, gOne, netCPUBad, netGPUOne, List.range_succ]

/-- Claim C5 counterexample: at a state whose net-density views disagree by
1000000 (far beyond any plausible threshold, and a breach on every cycle of
the run that produced it), the driver still returns exit code 0. -/
theorem claim5_counterexample_exit_zero_despite_error :
    (verifierPhase 1 gOne zeroSpecies zeroSpecies netHugeCPU netHugeGPU).2.1 = 1000000
    ∧ (verifierPhase 1 gOne zeroSpecies zeroSpecies netHugeCPU netHugeGPU).2.2 = 0 := by
  refine ⟨?_, rfl⟩
  simp [verifierPhase, verifierIdnError, gOne, netHugeCPU, List.range_succ]

/-- Claim C5 (amended): whenever `main` runs to completion its exit status
is 0, regardless of the verifier's results; the driver has no
threshold-breach exit path. -/
theorem claim5_amended_exit_always_zero (ns : Nat) (grd : Grid)
    (idsCPU idsGPU : Nat → SpeciesDens) (idnCPU idnGPU : NetDens) :
    (verifierPhase ns grd idsCPU idsGPU idnCPU idnGPU).2.2 = 0 := rfl

/-- Claim C6 (code bug), evaluated at `ns = 1`: the auxiliary field stores
of both replicas are allocated but never deallocated; the GPU per-species
density store and the GPU net density store are never allocated (despite
being used by the cycle loop); the GPU particle store is allocated but never
deallocated. -/
theorem claim6_alloc_dealloc_eval :
    Store.fieldAux .cpu ∈ allocations 1
    ∧ Store.fieldAux .gpu ∈ allocations 1
    ∧ (deallocations 1).count (Store.fieldAux .cpu) = 0
    ∧ (deallocations 1).count (Store.fieldAux .gpu) = 0
    ∧ (allocations 1).count (Store.densSpecies .gpu 0) = 0
    ∧ (allocations 1).count (Store.densNet .gpu) = 0
    ∧ Store.particles .gpu 0 ∈ allocations 1
    ∧ (deallocations 1).count (Store.particles .gpu 0) = 0 := by decide

/-- Claim C7: within every cycle the phases are strictly sequential — the
trace of one cycle is monotone in phase order, so all movers complete before
any interpolation, all interpolation and per-species boundary corrections
complete before the sum over species, and the sum and scalar-density
boundary correction complete before any snapshot output. -/
theorem claim7_cycle_phases_sequential (param : Parameters) (c : Nat) :
    (cycleEvents param c).Pairwise (fun a b => phaseOf a ≤ phaseOf b) := by
  have hmov : (moverEvents param.ns).Pairwise (fun a b => phaseOf a ≤ phaseOf b) :=
    pairwise_phase_const fun e he => phase_of_mem_mover he
  have hint : (interpEvents param.ns).Pairwise (fun a b => phaseOf a ≤ phaseOf b) :=
    pairwise_phase_const fun e he => phase_of_mem_interp he
  have hbc : (bcidsEvents param.ns).Pairwise (fun a b => phaseOf a ≤ phaseOf b) :=
    pairwise_phase_const fun e he => phase_of_mem_bcids he
  have hsum : sumEvents.Pairwise (fun a b => phaseOf a ≤ phaseOf b) := by decide
  have hout : (outputEvents param c).Pairwise (fun a b => phaseOf a ≤ phaseOf b) :=
    pairwise_phase_const fun e he => phase_of_mem_output he
  have hmi : (moverEvents param.ns ++ interpEvents param.ns).Pairwise
      (fun a b => phaseOf a ≤ phaseOf b) :=
    pairwise_phase_append 2 hmov hint
      (fun e he => by rw [phase_of_mem_mover he]; omega)
      (fun e he => by rw [phase_of_mem_interp he])
  have hmib : (moverEvents param.ns ++ interpEvents param.ns ++ bcidsEvents param.ns).Pairwise
      (fun a b => phaseOf a ≤ phaseOf b) :=
    pairwise_phase_append 3 hmi hbc
      (fun e he => by
        rcases List.mem_append.mp he with h | h
        · rw [phase_of_mem_mover h]; omega
        · rw [phase_of_mem_interp h]; omega)
      (fun e he => by rw [phase_of_mem_bcids he])
  have hmibs : (moverEvents param.ns ++ interpEvents param.ns ++ bcidsEvents param.ns
      ++ sumEvents).Pairwise (fun a b => phaseOf a ≤ phaseOf b) :=
    pairwise_phase_append 4 hmib hsum
      (fun e he => by
        rcases List.mem_append.mp he with h | h
        · rcases List.mem_append.mp h with h2 | h2
          · rw [phase_of_mem_mover h2]; omega
          · rw [phase_of_mem_interp h2]; omega
        · rw [phase_of_mem_bcids h]; omega)
      (fun e he => (phase_of_mem_sum he).1)
  have hrest : (restOfCycle param c).Pairwise (fun a b => phaseOf a ≤ phaseOf b) := by
    unfold restOfCycle
    exact pairwise_phase_append 6 hmibs hout
      (fun e he => by
        rcases List.mem_append.mp he with h | h
        · rcases List.mem_append.mp h with h2 | h2
          · rcases List.mem_append.mp h2 with h3 | h3
            · rw [phase_of_mem_mover h3]; omega
            · rw [phase_of_mem_interp h3]; omega
          · rw [phase_of_mem_bcids h2]; omega
        · have := phase_of_mem_sum h; omega)
      (fun e he => by rw [phase_of_mem_output he])
  exact pairwise_phase_append 1
    (by decide) hrest
    (fun e he => by
      simp only [List.mem_cons, List.not_mem_nil, or_false] at he
      rcases he with h | h <;> subst h <;> decide)
    (fun e he => (phase_of_mem_rest he).1)

/-- Claim C8: the snapshot writes of a cycle are exactly the four calls
(vector fields tagged "cpu" and "gpu", then scalar densities tagged "cpu"
and "gpu", each carrying the cycle number) when the cycle index is a
multiple of `FieldOutputCycle`, and there are none otherwise; no other part
of the cycle writes a snapshot. -/
theorem claim8_output_cadence (param : Parameters) (c : Nat) :
    (cycleEvents param c).filter isWriteEvent = outputEvents param c
    ∧ outputEvents param c
        = if c % param.FieldOutputCycle = 0 then
            [Event.writeVectors .cpu c, Event.writeVectors .gpu c,
             Event.writeScalars .cpu c, Event.writeScalars .gpu c]
          else [] := by
  constructor
  · have hmov : (moverEvents param.ns).filter isWriteEvent = [] :=
      List.filter_eq_nil_iff.mpr fun e he => by
        rw [isWriteEvent_iff_phase, phase_of_mem_mover he]; omega
    have hint : (interpEvents param.ns).filter isWriteEvent = [] :=
      List.filter_eq_nil_iff.mpr fun e he => by
        rw [isWriteEvent_iff_phase, phase_of_mem_interp he]; omega
    have hbc : (bcidsEvents param.ns).filter isWriteEvent = [] :=
      List.filter_eq_nil_iff.mpr fun e he => by
        rw [isWriteEvent_iff_phase, phase_of_mem_bcids he]; omega
    have hout : (outputEvents param c).filter isWriteEvent = outputEvents param c :=
      List.filter_eq_self.mpr fun e he => by
        rw [isWriteEvent_iff_phase, phase_of_mem_output he]
    simp only [cycleEvents, restOfCycle, List.filter_append, hmov, hint, hbc, hout]
    simp [sumEvents, isWriteEvent]
  · rfl

/-- Claim C9: the CPU-path and accelerator-path replicas are initialized by
the same procedure applied to the same parameters and grid, so their fields,
auxiliary fields, particles and per-species densities coincide at the start
of cycle 1 (for any deterministic initialization procedure, as the spec
requires of `initGEM`). -/
theorem claim9_replicas_identical_after_init :
    ∀ (F A P D : Type) (initGEM : Parameters → Grid → Replica F A P D)
      (param : Parameters) (grd : Grid),
      (initPhase initGEM param grd).1.emf = (initPhase initGEM param grd).2.emf
      ∧ (initPhase initGEM param grd).1.emfAux = (initPhase initGEM param grd).2.emfAux
      ∧ (initPhase initGEM param grd).1.parts = (initPhase initGEM param grd).2.parts
      ∧ (initPhase initGEM param grd).1.ids = (initPhase initGEM param grd).2.ids :=
  fun _ _ _ _ _ _ _ => ⟨rfl, rfl, rfl, rfl⟩

/-- Claim C10: every cycle zeroes the density stores of both replicas before
any mover or interpolation event of that cycle, and the density state a
cycle produces does not depend on the densities it started from — only on
that cycle's deposits. -/
theorem claim10_densities_zeroed_first (param : Parameters) (c : Nat) :
    cycleEvents param c
        = [Event.zeroDensities .cpu, Event.zeroDensities .gpu] ++ restOfCycle param c
    ∧ (restOfCycle param c).count (Event.zeroDensities .cpu) = 0
    ∧ (restOfCycle param c).count (Event.zeroDensities .gpu) = 0
    ∧ ∀ s1 s2 d, depositAfterZero s1 d = depositAfterZero s2 d := by
  refine ⟨rfl, ?_, ?_, fun _ _ _ => rfl⟩ <;>
  · rw [List.count_eq_zero]
    intro h
    have := phase_of_mem_rest h
    simp [phaseOf] at this

end SputniPIC
